import Mathlib

/-!
# Verification of the Exhaust Leaderboard rate limiter, HTTP client and aggregation logic

Shallow embedding of `exhaust_leaderboard.py`.  Time is modelled as `ℚ`
(the Python code uses `time.time()` floats; all claims are about exact
arithmetic relationships, not float rounding).  The two sliding windows of
`RateLimiter` are lists of admission timestamps, pruned from the front
exactly as the Python `deque` is (`popleft` while the head is stale).
-/

/-! ## Rate limiter (`RateLimiter`, lines 57-84)

The Python class reads the module-level constants `ONE_SEC_LIMIT = 20`,
`ONE_SEC_WINDOW = 1.0`, `TWO_MIN_LIMIT = 100`, `TWO_MIN_WINDOW = 120.0`.
We make these a parameter record so that the spec's 2-per-1s / 5-per-10s
test configuration is expressible; `defaultConfig` is the source's values. -/

structure RLConfig where
  limit1 : ℕ
  window1 : ℚ
  limit2 : ℕ
  window2 : ℚ
deriving Repr, DecidableEq

def defaultConfig : RLConfig := ⟨20, 1, 100, 120⟩

/-- The limiter state: the two deques of admission timestamps. -/
structure RateLimiter where
  w1 : List ℚ
  w2 : List ℚ
deriving Repr, DecidableEq

def RateLimiter.init : RateLimiter := ⟨[], []⟩

/-- `while w and now - w[0] > window: w.popleft()` -/
def pruneWindow (window : ℚ) (now : ℚ) (w : List ℚ) : List ℚ :=
  w.dropWhile (fun t => decide (now - t > window))

/-- `RateLimiter._prune(now)` -/
def RateLimiter.prune (cfg : RLConfig) (now : ℚ) (s : RateLimiter) : RateLimiter :=
  ⟨pruneWindow cfg.window1 now s.w1, pruneWindow cfg.window2 now s.w2⟩

/-- `t + window - now` for the head of a deque, `0.0` when empty:
`(self.w1[0] + ONE_SEC_WINDOW - now) if self.w1 else 0.0`. -/
def headWait (window : ℚ) (now : ℚ) (w : List ℚ) : ℚ :=
  match w with
  | [] => 0
  | t :: _ => t + window - now

/-- `sleep_for = max(sleep1, sleep2, 0.01)` — computed on the already pruned
state inside the failure branch of `wait_for_slot`. -/
def sleepFor (cfg : RLConfig) (now : ℚ) (s : RateLimiter) : ℚ :=
  max (max (headWait cfg.window1 now s.w1) (headWait cfg.window2 now s.w2)) (1/100)

/-- Modelled from the spec: "compute the minimum wait until the oldest entry
in whichever window is full expires out of its window ... clamped to a small
positive floor".  Only *full* windows contribute a candidate wait; the result
is the minimum of the candidates, clamped below by `0.01`. -/
def specSleepFor (cfg : RLConfig) (now : ℚ) (s : RateLimiter) : ℚ :=
  let full1 := cfg.limit1 ≤ s.w1.length
  let full2 := cfg.limit2 ≤ s.w2.length
  if full1 ∧ full2 then
    max (min (headWait cfg.window1 now s.w1) (headWait cfg.window2 now s.w2)) (1/100)
  else if full1 then max (headWait cfg.window1 now s.w1) (1/100)
  else if full2 then max (headWait cfg.window2 now s.w2) (1/100)
  else 1/100

/-- One iteration of the `wait_for_slot` loop body at clock value `now`:
prune both deques, then admit (append `now` to both) iff both are below
their limits.  Returns whether the slot was taken and the new state. -/
def waitStep (cfg : RLConfig) (now : ℚ) (s : RateLimiter) : Bool × RateLimiter :=
  if (s.prune cfg now).w1.length < cfg.limit1 ∧ (s.prune cfg now).w2.length < cfg.limit2 then
    (true, ⟨(s.prune cfg now).w1 ++ [now], (s.prune cfg now).w2 ++ [now]⟩)
  else
    (false, s.prune cfg now)

/-- A sequence of `wait_for_slot` loop iterations at the given (nondecreasing)
clock values: a blocked caller retrying after its sleep is simply a later
attempt in the sequence.  Returns the final state and the list of admission
timestamps, in order. -/
def runAttempts (cfg : RLConfig) : RateLimiter → List ℚ → RateLimiter × List ℚ
  | s, [] => (s, [])
  | s, t :: ts =>
    ((runAttempts cfg (waitStep cfg t s).2 ts).1,
      if (waitStep cfg t s).1 then t :: (runAttempts cfg (waitStep cfg t s).2 ts).2
      else (runAttempts cfg (waitStep cfg t s).2 ts).2)

/-- Number of timestamps of `l` falling in the closed interval `[a, a + window]`. -/
def countWin (a window : ℚ) (l : List ℚ) : ℕ :=
  (l.filter (fun x => decide (a ≤ x ∧ x ≤ a + window))).length

/-- Number of timestamps of `l` that are `≥ lo`. -/
def countFrom (lo : ℚ) (l : List ℚ) : ℕ :=
  (l.filter (fun x => decide (lo ≤ x))).length

/-- Each admission, relative to the admissions before it (`past`), saw fewer
than `limit` earlier admissions within `window` of itself. -/
def GoodFrom (window : ℚ) (limit : ℕ) : List ℚ → List ℚ → Prop
  | _, [] => True
  | past, t :: rest => countFrom (t - window) past < limit ∧ GoodFrom window limit (past ++ [t]) rest

/-! ## C1: the dual sliding-window guarantee -/

lemma filter_length_mono {α : Type} (p q : α → Bool) (h : ∀ x, p x = true → q x = true) :
    ∀ l : List α, (l.filter p).length ≤ (l.filter q).length := by
  intro l
  induction l with
  | nil => simp
  | cons a l ih =>
    simp only [List.filter_cons]
    by_cases hp : p a = true
    · rw [if_pos hp, if_pos (h a hp)]
      simpa using ih
    · rw [if_neg hp]
      by_cases hq : q a = true
      · rw [if_pos hq]
        exact ih.trans (by simp [Nat.le_succ])
      · rw [if_neg hq]
        exact ih

lemma countWin_append (a window : ℚ) (l₁ l₂ : List ℚ) :
    countWin a window (l₁ ++ l₂) = countWin a window l₁ + countWin a window l₂ := by
  simp [countWin, List.filter_append]

lemma countFrom_append (lo : ℚ) (l₁ l₂ : List ℚ) :
    countFrom lo (l₁ ++ l₂) = countFrom lo l₁ + countFrom lo l₂ := by
  simp [countFrom, List.filter_append]

lemma countFrom_eq_zero (lo : ℚ) (l : List ℚ) (h : ∀ x ∈ l, x < lo) :
    countFrom lo l = 0 := by
  induction l with
  | nil => rfl
  | cons a l ih =>
    have ha : ¬ (lo ≤ a) := not_le.mpr (h a (by simp))
    simp only [countFrom, List.filter_cons]
    rw [if_neg (by simpa using ha)]
    exact ih (fun x hx => h x (by simp [hx]))

/-- If each admission saw fewer than `limit` prior admissions within `window`
of itself, then every closed interval of length `window` holds at most
`limit` admissions. -/
lemma goodFrom_countWin (window : ℚ) (limit : ℕ) :
    ∀ (l past : List ℚ), GoodFrom window limit past l →
      (∀ b, countWin b window past ≤ limit) →
      ∀ a, countWin a window (past ++ l) ≤ limit := by
  intro l
  induction l with
  | nil =>
    intro past _ hpast a
    simpa using hpast a
  | cons t rest ih =>
    intro past hg hpast a
    have hcnt : countFrom (t - window) past < limit := hg.1
    have hrest : GoodFrom window limit (past ++ [t]) rest := hg.2
    have hstep : ∀ b, countWin b window (past ++ [t]) ≤ limit := by
      intro b
      rw [countWin_append]
      by_cases ht : b ≤ t ∧ t ≤ b + window
      · have h1 : countWin b window [t] = 1 := by
          simp [countWin, ht]
        have hmono : countWin b window past ≤ countFrom (t - window) past := by
          apply filter_length_mono
          intro x hx
          simp only [decide_eq_true_eq] at hx ⊢
          have h2 := ht.2
          have h3 := hx.1
          linarith
        have hlt : countWin b window past < limit := lt_of_le_of_lt hmono hcnt
        omega
      · have h0 : countWin b window [t] = 0 := by
          simp [countWin, ht]
        rw [h0]
        simpa using hpast b
    have hres := ih (past ++ [t]) hrest hstep a
    simpa [List.append_assoc] using hres

lemma pruneWindow_split (window now : ℚ) (w : List ℚ) :
    ∃ d, w = d ++ pruneWindow window now w ∧ ∀ x ∈ d, now - x > window := by
  refine ⟨w.takeWhile (fun t => decide (now - t > window)),
    (List.takeWhile_append_dropWhile _ _).symm, ?_⟩
  intro x hx
  simpa using List.mem_takeWhile_imp hx

/-- Operational invariant: along any nondecreasing sequence of attempt times,
every admission sees fewer than the limit of prior admissions within each
window of itself.  `adm` is the list of admissions already granted, and each
window's deque is a suffix of `adm` whose dropped prefix is stale relative to
every future attempt time. -/
lemma runAttempts_good (cfg : RLConfig) :
    ∀ (ts : List ℚ) (s : RateLimiter) (adm : List ℚ),
      ts.Sorted (· ≤ ·) →
      (∃ d, adm = d ++ s.w1 ∧ ∀ x ∈ d, ∀ y ∈ ts, y - x > cfg.window1) →
      (∃ d, adm = d ++ s.w2 ∧ ∀ x ∈ d, ∀ y ∈ ts, y - x > cfg.window2) →
      GoodFrom cfg.window1 cfg.limit1 adm (runAttempts cfg s ts).2 ∧
      GoodFrom cfg.window2 cfg.limit2 adm (runAttempts cfg s ts).2 := by
  intro ts
  induction ts with
  | nil =>
    intro s adm _ _ _
    exact ⟨trivial, trivial⟩
  | cons t ts ih =>
    intro s adm hsort hinv1 hinv2
    obtain ⟨d1, hadm1, hd1⟩ := hinv1
    obtain ⟨d2, hadm2, hd2⟩ := hinv2
    have hsort' : ts.Sorted (· ≤ ·) := hsort.of_cons
    have hts_ge : ∀ y ∈ ts, t ≤ y := List.rel_of_sorted_cons hsort
    obtain ⟨p1, hp1eq, hp1⟩ := pruneWindow_split cfg.window1 t s.w1
    obtain ⟨p2, hp2eq, hp2⟩ := pruneWindow_split cfg.window2 t s.w2
    have hstale1 : ∀ x ∈ d1 ++ p1, t - x > cfg.window1 := by
      intro x hx
      rcases List.mem_append.mp hx with h | h
      · exact hd1 x h t (by simp)
      · exact hp1 x h
    have hstale2 : ∀ x ∈ d2 ++ p2, t - x > cfg.window2 := by
      intro x hx
      rcases List.mem_append.mp hx with h | h
      · exact hd2 x h t (by simp)
      · exact hp2 x h
    have hfut1 : ∀ x ∈ d1 ++ p1, ∀ y ∈ ts, y - x > cfg.window1 := by
      intro x hx y hy
      have h1 := hstale1 x hx
      have h2 := hts_ge y hy
      linarith
    have hfut2 : ∀ x ∈ d2 ++ p2, ∀ y ∈ ts, y - x > cfg.window2 := by
      intro x hx y hy
      have h1 := hstale2 x hx
      have h2 := hts_ge y hy
      linarith
    have hadm1' : adm = (d1 ++ p1) ++ (s.prune cfg t).w1 := by
      rw [hadm1, hp1eq]
      simp [RateLimiter.prune, List.append_assoc]
    have hadm2' : adm = (d2 ++ p2) ++ (s.prune cfg t).w2 := by
      rw [hadm2, hp2eq]
      simp [RateLimiter.prune, List.append_assoc]
    by_cases hslot : (s.prune cfg t).w1.length < cfg.limit1 ∧ (s.prune cfg t).w2.length < cfg.limit2
    · have hws : waitStep cfg t s =
          (true, ⟨(s.prune cfg t).w1 ++ [t], (s.prune cfg t).w2 ++ [t]⟩) := by
        simp [waitStep, hslot]
      have hcnt1 : countFrom (t - cfg.window1) adm < cfg.limit1 := by
        rw [hadm1', countFrom_append]
        have h0 : countFrom (t - cfg.window1) (d1 ++ p1) = 0 :=
          countFrom_eq_zero _ _ (fun x hx => by have := hstale1 x hx; linarith)
        have hle : countFrom (t - cfg.window1) (s.prune cfg t).w1 ≤ (s.prune cfg t).w1.length :=
          List.length_filter_le _ _
        have h2 := hslot.1
        omega
      have hcnt2 : countFrom (t - cfg.window2) adm < cfg.limit2 := by
        rw [hadm2', countFrom_append]
        have h0 : countFrom (t - cfg.window2) (d2 ++ p2) = 0 :=
          countFrom_eq_zero _ _ (fun x hx => by have := hstale2 x hx; linarith)
        have hle : countFrom (t - cfg.window2) (s.prune cfg t).w2 ≤ (s.prune cfg t).w2.length :=
          List.length_filter_le _ _
        have h2 := hslot.2
        omega
      have hrec := ih ⟨(s.prune cfg t).w1 ++ [t], (s.prune cfg t).w2 ++ [t]⟩ (adm ++ [t]) hsort'
        ⟨d1 ++ p1, by rw [hadm1']; simp [List.append_assoc], hfut1⟩
        ⟨d2 ++ p2, by rw [hadm2']; simp [List.append_assoc], hfut2⟩
      have hrun : (runAttempts cfg s (t :: ts)).2 =
          t :: (runAttempts cfg ⟨(s.prune cfg t).w1 ++ [t], (s.prune cfg t).w2 ++ [t]⟩ ts).2 := by
        simp [runAttempts, hws]
      rw [hrun]
      exact ⟨⟨hcnt1, hrec.1⟩, ⟨hcnt2, hrec.2⟩⟩
    · have hws : waitStep cfg t s = (false, s.prune cfg t) := by
        simp [waitStep, hslot]
      have hrun : (runAttempts cfg s (t :: ts)).2 =
          (runAttempts cfg (s.prune cfg t) ts).2 := by
        simp [runAttempts, hws]
      rw [hrun]
      exact ih (s.prune cfg t) adm hsort' ⟨d1 ++ p1, hadm1', hfut1⟩ ⟨d2 ++ p2, hadm2', hfut2⟩

/-- C1: for every monotone sequence of `wait_for_slot` attempt times, no
rolling 1-second interval contains more than 20 admission timestamps and no
rolling 120-second interval contains more than 100 admission timestamps. -/
theorem c1_rate_limiter_window_bounds (ts : List ℚ) (hts : ts.Sorted (· ≤ ·)) (a : ℚ) :
    countWin a 1 (runAttempts defaultConfig .init ts).2 ≤ 20 ∧
    countWin a 120 (runAttempts defaultConfig .init ts).2 ≤ 100 := by
  have h := runAttempts_good defaultConfig ts .init []
    hts ⟨[], rfl, by simp⟩ ⟨[], rfl, by simp⟩
  constructor
  · have h1 := goodFrom_countWin 1 20 (runAttempts defaultConfig .init ts).2 [] h.1
      (by intro b; simp [countWin]) a
    simpa using h1
  · have h2 := goodFrom_countWin 120 100 (runAttempts defaultConfig .init ts).2 [] h.2
      (by intro b; simp [countWin]) a
    simpa using h2

theorem c1_rate_limiter_window_bounds_witness :
    countWin 0 1 (runAttempts defaultConfig .init [0, 1/2, 2]).2 ≤ 20 ∧
    countWin 0 120 (runAttempts defaultConfig .init [0, 1/2, 2]).2 ≤ 100 :=
  c1_rate_limiter_window_bounds [0, 1/2, 2] (by norm_num [List.sorted_cons]) 0

/-! ## C2: the sleep computation when a window is full -/

/-- C2 counterexample: with the spec's 2-per-1s / 5-per-10s test
configuration, two attempts at time 0 are admitted; the third attempt at
time 0 is refused with the 1-second window full and the 10-second window not
full, and the code's sleep (`max(sleep1, sleep2, 0.01)` over *both* windows)
is `10` — the 10-second window's head expiry — while the spec's
minimum-over-full-windows sleep is `1`. -/
theorem c2_sleep_counterexample :
    (runAttempts ⟨2, 1, 5, 10⟩ .init [0, 0]).2 = [0, 0] ∧
    (waitStep ⟨2, 1, 5, 10⟩ 0 (runAttempts ⟨2, 1, 5, 10⟩ .init [0, 0]).1).1 = false ∧
    sleepFor ⟨2, 1, 5, 10⟩ 0
      ((runAttempts ⟨2, 1, 5, 10⟩ .init [0, 0]).1.prune ⟨2, 1, 5, 10⟩ 0) = 10 ∧
    specSleepFor ⟨2, 1, 5, 10⟩ 0
      ((runAttempts ⟨2, 1, 5, 10⟩ .init [0, 0]).1.prune ⟨2, 1, 5, 10⟩ 0) = 1 := by
  have hstate : runAttempts ⟨2, 1, 5, 10⟩ .init [0, 0] = (⟨[0, 0], [0, 0]⟩, [0, 0]) := by
    norm_num [runAttempts, waitStep, RateLimiter.prune, pruneWindow, RateLimiter.init,
      List.dropWhile]
  rw [hstate]
  refine ⟨rfl, ?_, ?_, ?_⟩
  · norm_num [waitStep, RateLimiter.prune, pruneWindow, List.dropWhile]
  · norm_num [RateLimiter.prune, pruneWindow, List.dropWhile, sleepFor, headWait]
  · norm_num [RateLimiter.prune, pruneWindow, List.dropWhile, specSleepFor, headWait]

/-- C2 amended: on a refused attempt the code sleeps
`max(sleep1, sleep2, 0.01)` where each `sleepᵢ` is window `i`'s head-expiry
wait regardless of whether window `i` is full; with the 2-per-1s / 5-per-10s
configuration, after two admissions at time 0 the third attempt at any time
`t ∈ [0, 1)` is refused and sleeps `10 - t` — until the 10-second window's
oldest entry expires, not merely `1 - t` — and its retry at time
`t + (10 - t) = 10` is admitted. -/
theorem c2_sleep_amended (t : ℚ) (h0 : 0 ≤ t) (h1 : t < 1) :
    (waitStep ⟨2, 1, 5, 10⟩ t (runAttempts ⟨2, 1, 5, 10⟩ .init [0, 0]).1).1 = false ∧
    sleepFor ⟨2, 1, 5, 10⟩ t
      ((runAttempts ⟨2, 1, 5, 10⟩ .init [0, 0]).1.prune ⟨2, 1, 5, 10⟩ t) = 10 - t ∧
    (waitStep ⟨2, 1, 5, 10⟩ (t + (10 - t)) (runAttempts ⟨2, 1, 5, 10⟩ .init [0, 0]).1).1
      = true := by
  have hstate : (runAttempts ⟨2, 1, 5, 10⟩ .init [0, 0]).1 = ⟨[0, 0], [0, 0]⟩ := by
    norm_num [runAttempts, waitStep, RateLimiter.prune, pruneWindow, RateLimiter.init,
      List.dropWhile]
  rw [hstate]
  have hc1 : ¬ ((1 : ℚ) < t) := by linarith
  have hc2 : ¬ ((10 : ℚ) < t) := by linarith
  have hprune : RateLimiter.prune ⟨2, 1, 5, 10⟩ t ⟨[0, 0], [0, 0]⟩ = ⟨[0, 0], [0, 0]⟩ := by
    simp [RateLimiter.prune, pruneWindow, List.dropWhile, hc1, hc2]
  refine ⟨?_, ?_, ?_⟩
  · simp [waitStep, hprune]
  · rw [hprune]
    have hm1 : (0 : ℚ) + 1 - t ≤ 0 + 10 - t := by linarith
    have hm2 : (1/100 : ℚ) ≤ 0 + 10 - t := by linarith
    simp only [sleepFor, headWait, max_eq_right hm1, max_eq_left hm2]
    ring
  · have ht10 : t + (10 - t) = (10 : ℚ) := by ring
    rw [ht10]
    norm_num [waitStep, RateLimiter.prune, pruneWindow, List.dropWhile]

theorem c2_sleep_amended_witness :
    (waitStep ⟨2, 1, 5, 10⟩ (1/2) (runAttempts ⟨2, 1, 5, 10⟩ .init [0, 0]).1).1 = false ∧
    sleepFor ⟨2, 1, 5, 10⟩ (1/2)
      ((runAttempts ⟨2, 1, 5, 10⟩ .init [0, 0]).1.prune ⟨2, 1, 5, 10⟩ (1/2)) = 10 - 1/2 ∧
    (waitStep ⟨2, 1, 5, 10⟩ (1/2 + (10 - 1/2)) (runAttempts ⟨2, 1, 5, 10⟩ .init [0, 0]).1).1
      = true :=
  c2_sleep_amended (1/2) (by norm_num) (by norm_num)

/-! ## Resilient HTTP client (`RiotClient._get`, lines 125-159)

`_get` is embedded over an oracle `r : ℕ → Outcome` giving the outcome of
the HTTP request made on each attempt number.  Note that the Python body
`resp = self.session.get(...)` is *not* inside a try/except: a transport
error raised there propagates out of `_get` at once. -/

/-- One HTTP attempt's outcome: either the transport layer raises
(timeout / connection error), or a response arrives with a status code, an
optional numeric `Retry-After` header, and an optional parsed JSON body
(`none` models a body `resp.json()` fails to parse). -/
inductive Outcome where
  | exn : Outcome
  | resp (status : ℕ) (retryAfter : Option ℚ) (body : Option String) : Outcome
deriving Repr, DecidableEq

/-- The result of `_get`: a parsed body (`""` standing for the defensive `{}`
when parsing fails), a non-success error carrying status and body context,
the distinct "exhausted retries" error, or an uncaught transport exception. -/
inductive GetResult where
  | success (body : String) : GetResult
  | httpError (status : ℕ) (err : Option String) : GetResult
  | exhausted : GetResult
  | transportExn : GetResult
deriving Repr, DecidableEq

/-- The `for attempt in range(1, max_retries + 1)` loop of `_get`, at attempt
number `attempt` with `fuel` iterations remaining.  Returns the result, the
list of back-off sleeps performed (in order), and the number of
`RATE_LIMITER.wait_for_slot()` admissions consumed (one per attempt made). -/
def getAttempts (r : ℕ → Outcome) (backoff : ℚ) : ℕ → ℕ → GetResult × List ℚ × ℕ
  | _, 0 => (.exhausted, [], 0)
  | attempt, fuel + 1 =>
    match r attempt with
    | .exn => (.transportExn, [], 1)
    | .resp status retryAfter body =>
      if status = 429 then
        ((getAttempts r backoff (attempt + 1) fuel).1,
          (match retryAfter with
            | some ra => ra
            | none => max 1 (backoff * (attempt : ℚ) * 5)) ::
            (getAttempts r backoff (attempt + 1) fuel).2.1,
          (getAttempts r backoff (attempt + 1) fuel).2.2 + 1)
      else if 500 ≤ status ∧ status < 600 then
        ((getAttempts r backoff (attempt + 1) fuel).1,
          (backoff * (attempt : ℚ)) :: (getAttempts r backoff (attempt + 1) fuel).2.1,
          (getAttempts r backoff (attempt + 1) fuel).2.2 + 1)
      else if status < 400 then
        (.success (body.getD ""), [], 1)
      else
        (.httpError status body, [], 1)

/-- `RiotClient._get` with its default `max_retries = 3`, `backoff_sec = 1.0`
made explicit. -/
def riotGet (r : ℕ → Outcome) (maxRetries : ℕ) (backoff : ℚ) : GetResult × List ℚ × ℕ :=
  getAttempts r backoff 1 maxRetries

/-- A response the loop treats as retryable: HTTP 429 or a 5xx. -/
def RetryableResp (o : Outcome) : Prop :=
  ∃ st ra body, o = .resp st ra body ∧ (st = 429 ∨ (500 ≤ st ∧ st < 600))

/-- C3 counterexample: when every attempt fails at the transport level,
`_get` makes exactly one attempt (one rate-limiter admission) and the
exception propagates out — it is not retried up to the ceiling of 3 and does
not surface as the "exhausted retries" error. -/
theorem c3_transport_counterexample :
    riotGet (fun _ => .exn) 3 1 = (.transportExn, [], 1) := rfl

/-- C3 amended: a transport-level failure of an attempt propagates out of
`_get` immediately, from that attempt, with no further retry; only 429 and
5xx responses are treated as transient and retried. -/
theorem c3_transport_amended (r : ℕ → Outcome) (b : ℚ) (attempt fuel : ℕ)
    (h : r attempt = .exn) :
    getAttempts r b attempt (fuel + 1) = (.transportExn, [], 1) := by
  simp [getAttempts, h]

theorem c3_transport_amended_witness :
    getAttempts (fun n => if n = 2 then .exn else .resp 503 none none) 1 2 2
      = (.transportExn, [], 1) :=
  c3_transport_amended (fun n => if n = 2 then .exn else .resp 503 none none) 1 2 1 rfl

/-- Helper for the retry ceiling: if every attempt the loop can make yields a
retryable response, the loop falls off the end and raises the distinct
"exhausted retries" error. -/
lemma getAttempts_exhausted (r : ℕ → Outcome) (b : ℚ) :
    ∀ (fuel attempt : ℕ), (∀ n, attempt ≤ n → n < attempt + fuel → RetryableResp (r n)) →
      (getAttempts r b attempt fuel).1 = .exhausted := by
  intro fuel
  induction fuel with
  | zero => intro attempt _; rfl
  | succ fuel ih =>
    intro attempt h
    obtain ⟨st, ra, body, hresp, hst⟩ := h attempt (le_refl _) (by omega)
    have hrec := ih (attempt + 1) (fun n h1 h2 => h n (by omega) (by omega))
    rcases hst with h429 | h5xx
    · simp [getAttempts, hresp, h429, hrec]
    · have hne : st ≠ 429 := by omega
      simp [getAttempts, hresp, hne, h5xx, hrec]

/-- C4: a 5xx response is retried after a linearly growing backoff of
`backoff_sec * attempt`; any other non-success status that is neither 429
nor 5xx raises immediately with the status and body captured, consuming no
further attempts; and when all 3 attempts end in retryable conditions the
loop raises the distinct "exhausted retries" error. -/
theorem c4_retry_policy :
    (∀ (r : ℕ → Outcome) (b : ℚ) (attempt fuel : ℕ) (st : ℕ) (ra : Option ℚ)
        (body : Option String),
      r attempt = .resp st ra body → 500 ≤ st → st < 600 →
      getAttempts r b attempt (fuel + 1) =
        ((getAttempts r b (attempt + 1) fuel).1,
          (b * (attempt : ℚ)) :: (getAttempts r b (attempt + 1) fuel).2.1,
          (getAttempts r b (attempt + 1) fuel).2.2 + 1)) ∧
    (∀ (r : ℕ → Outcome) (b : ℚ) (attempt fuel : ℕ) (st : ℕ) (ra : Option ℚ)
        (body : Option String),
      r attempt = .resp st ra body → 400 ≤ st → st ≠ 429 → ¬ (500 ≤ st ∧ st < 600) →
      getAttempts r b attempt (fuel + 1) = (.httpError st body, [], 1)) ∧
    (∀ (r : ℕ → Outcome) (b : ℚ),
      (∀ n, 1 ≤ n → n ≤ 3 → RetryableResp (r n)) →
      (riotGet r 3 b).1 = .exhausted) := by
  refine ⟨?_, ?_, ?_⟩
  · intro r b attempt fuel st ra body h h5 h6
    have hne : st ≠ 429 := by omega
    simp [getAttempts, h, hne, h5, h6]
  · intro r b attempt fuel st ra body h h4 hne hn5
    have hlt : ¬ (st < 400) := by omega
    simp [getAttempts, h, hne, hn5, hlt]
  · intro r b h
    exact getAttempts_exhausted r b 3 1 (fun n h1 h2 => h n h1 (by omega))

theorem c4_retry_policy_witness :
    (getAttempts (fun _ => .resp 503 none none) 1 1 3 =
      ((getAttempts (fun _ => .resp 503 none none) 1 2 2).1,
        ((1 : ℚ) * ((1 : ℕ) : ℚ)) :: (getAttempts (fun _ => .resp 503 none none) 1 2 2).2.1,
        (getAttempts (fun _ => .resp 503 none none) 1 2 2).2.2 + 1)) ∧
    (getAttempts (fun _ => .resp 404 none (some "not found")) 1 1 3 =
      (.httpError 404 (some "not found"), [], 1)) ∧
    ((riotGet (fun _ => .resp 503 none none) 3 1).1 = .exhausted) :=
  ⟨c4_retry_policy.1 (fun _ => .resp 503 none none) 1 1 2 503 none none rfl
      (by norm_num) (by norm_num),
    c4_retry_policy.2.1 (fun _ => .resp 404 none (some "not found")) 1 1 2 404 none
      (some "not found") rfl (by norm_num) (by norm_num) (by norm_num),
    c4_retry_policy.2.2 (fun _ => .resp 503 none none) 1
      (fun n h1 h2 => ⟨503, none, none, rfl, Or.inr (by norm_num)⟩)⟩

/-- C5: when an attempt receives a 429, the loop sleeps the server-provided
`Retry-After` value when the header is present and `max(1, backoff * attempt * 5)`
otherwise, then retries; the 429 consumes no rate-limiter admission beyond the
one admission of each attempt (the slot count is exactly one for this attempt
plus those of the continuation). -/
theorem c5_429_handling (r : ℕ → Outcome) (b : ℚ) (attempt fuel : ℕ)
    (ra : Option ℚ) (body : Option String) (h : r attempt = .resp 429 ra body) :
    getAttempts r b attempt (fuel + 1) =
      ((getAttempts r b (attempt + 1) fuel).1,
        ra.getD (max 1 (b * (attempt : ℚ) * 5)) ::
          (getAttempts r b (attempt + 1) fuel).2.1,
        (getAttempts r b (attempt + 1) fuel).2.2 + 1) := by
  cases ra with
  | none => simp [getAttempts, h, Option.getD]
  | some q => simp [getAttempts, h, Option.getD]

def r429 : ℕ → Outcome :=
  fun n => if n = 1 then .resp 429 (some 2) none else .resp 200 none (some "ok")

theorem c5_429_handling_witness :
    getAttempts r429 1 1 3 =
      ((getAttempts r429 1 2 2).1,
        (2 : ℚ) :: (getAttempts r429 1 2 2).2.1,
        (getAttempts r429 1 2 2).2.2 + 1) :=
  c5_429_handling r429 1 1 2 (some 2) none rfl

/-! ## Aggregation engine (`count_exhaust_for_player`, lines 232-257) -/

def EXHAUST_ID : ℤ := 3

/-- A participant entry of a fetched match record; each field is `none` when
the corresponding key is missing from the payload. -/
structure MatchParticipant where
  puuid : Option String
  summoner1Id : Option ℤ
  summoner2Id : Option ℤ
deriving Repr, DecidableEq

structure MatchInfo where
  participants : List MatchParticipant
deriving Repr, DecidableEq

/-- A match record; `info = none` models a payload missing the `"info"` key,
for which `data.get("info", {})` yields `{}` and hence no participants. -/
structure MatchData where
  info : Option MatchInfo
deriving Repr, DecidableEq

def MatchData.participantsOf (d : MatchData) : List MatchParticipant :=
  match d.info with
  | some i => i.participants
  | none => []

/-- `next((p for p in participants if p.get("puuid") == puuid), None)` -/
def findMe (puuid : String) (ps : List MatchParticipant) : Option MatchParticipant :=
  ps.find? (fun p => decide (p.puuid = some puuid))

/-- Whether the entry's two summoner-ability slots include Exhaust:
`s1 == EXHAUST_ID or s2 == EXHAUST_ID` (a missing slot compares unequal). -/
def usesExhaust (me : MatchParticipant) : Prop :=
  me.summoner1Id = some EXHAUST_ID ∨ me.summoner2Id = some EXHAUST_ID

instance (me : MatchParticipant) : Decidable (usesExhaust me) := by
  unfold usesExhaust; infer_instance

/-- The per-match loop of `count_exhaust_for_player`; `fetch mid` abstracts
`client.match_by_id(mid)`.  Returns `(exhaust_count, total)`. -/
def countLoop (fetch : String → MatchData) (puuid : String) : List String → ℕ × ℕ
  | [] => (0, 0)
  | mid :: rest =>
    match findMe puuid (MatchData.participantsOf (fetch mid)) with
    | none => countLoop fetch puuid rest
    | some me =>
      ((if usesExhaust me then 1 else 0) + (countLoop fetch puuid rest).1,
        1 + (countLoop fetch puuid rest).2)

/-- `count_exhaust_for_player`, with its early `if not match_ids: return 0, 0`. -/
def count_exhaust_for_player (fetch : String → MatchData) (puuid : String)
    (match_ids : List String) : ℕ × ℕ :=
  if match_ids = [] then (0, 0) else countLoop fetch puuid match_ids

/-- The match ids whose fetched record contains an entry for this player. -/
def foundIn (fetch : String → MatchData) (puuid : String) (mid : String) : Bool :=
  (findMe puuid (MatchData.participantsOf (fetch mid))).isSome

/-- The match ids whose entry for this player used Exhaust. -/
def usedIn (fetch : String → MatchData) (puuid : String) (mid : String) : Bool :=
  match findMe puuid (MatchData.participantsOf (fetch mid)) with
  | some me => decide (usesExhaust me)
  | none => false

lemma countLoop_spec (fetch : String → MatchData) (puuid : String) (mids : List String) :
    countLoop fetch puuid mids =
      ((mids.filter (usedIn fetch puuid)).length,
        (mids.filter (foundIn fetch puuid)).length) := by
  induction mids with
  | nil => rfl
  | cons mid rest ih =>
    cases hf : findMe puuid (MatchData.participantsOf (fetch mid)) with
    | none =>
      have hu : usedIn fetch puuid mid = false := by simp [usedIn, hf]
      have hfo : foundIn fetch puuid mid = false := by simp [foundIn, hf]
      simp [countLoop, hf, List.filter_cons, hu, hfo, ih]
    | some me =>
      have hfo : foundIn fetch puuid mid = true := by simp [foundIn, hf]
      by_cases hx : usesExhaust me
      · have hu : usedIn fetch puuid mid = true := by simp [usedIn, hf, hx]
        simp [countLoop, hf, List.filter_cons, hu, hfo, ih, hx, Nat.add_comm]
      · have hu : usedIn fetch puuid mid = false := by simp [usedIn, hf, hx]
        simp [countLoop, hf, List.filter_cons, hu, hfo, ih, hx, Nat.add_comm]

/-- C6: `count_exhaust_for_player` returns `(used, examined)` where
`examined` counts the fetched matches containing an entry for this player
(others are skipped silently), `used` counts those whose entry's two ability
slots include the Exhaust id 3; an empty match-id list yields `(0, 0)`; and
`used ≤ examined` always. -/
theorem c6_count_exhaust (fetch : String → MatchData) (puuid : String)
    (mids : List String) :
    count_exhaust_for_player fetch puuid mids =
      ((mids.filter (usedIn fetch puuid)).length,
        (mids.filter (foundIn fetch puuid)).length) ∧
    count_exhaust_for_player fetch puuid [] = (0, 0) ∧
    (count_exhaust_for_player fetch puuid mids).1
      ≤ (count_exhaust_for_player fetch puuid mids).2 := by
  have hmain : count_exhaust_for_player fetch puuid mids =
      ((mids.filter (usedIn fetch puuid)).length,
        (mids.filter (foundIn fetch puuid)).length) := by
    by_cases h : mids = []
    · subst h; rfl
    · rw [count_exhaust_for_player, if_neg h, countLoop_spec]
  refine ⟨hmain, rfl, ?_⟩
  rw [hmain]
  apply filter_length_mono
  intro mid hu
  simp only [usedIn, foundIn] at hu ⊢
  cases hf : findMe puuid (MatchData.participantsOf (fetch mid)) with
  | none => rw [hf] at hu; exact absurd hu (by simp)
  | some me => simp [hf]

/-! ## Identity resolution (`ensure_puuid`, lines 212-229)

Field values are `Option String`, `none` when the key is missing.  Python's
`or` chain selects by *truthiness*: a present-but-empty string is skipped
just like a missing key.  The secondary lookup `client.summoner_by_id` is
abstracted by `lookup : String → Summoner`; per the spec's external
interface contract the response carries a stable player id (`puuid`), while
its `name` key may be absent (`summ.get("name", "Unknown")`). -/

structure Participant where
  puuid : Option String
  riotId : Option String
  summonerName : Option String
  summonerId : Option String
  encryptedSummonerId : Option String
  id : Option String
deriving Repr, DecidableEq

structure Summoner where
  puuid : String
  name : Option String
deriving Repr, DecidableEq

/-- Python truthiness of an optional string: present and non-empty. -/
def truthy : Option String → Bool
  | none => false
  | some s => decide (s ≠ "")

/-- `a or b` for an optional string falling back to a string default. -/
def orStr (a : Option String) (b : String) : String :=
  match a with
  | some s => if s ≠ "" then s else b
  | none => b

/-- `participant.get("riotId") or participant.get("summonerName") or "Unknown"` -/
def baseDisplayName (p : Participant) : String :=
  orStr p.riotId (orStr p.summonerName "Unknown")

/-- The first truthy element of the `or` chain (else `none`, which also
covers a chain ending in a present-but-falsy value: both fail `if not enc_id`). -/
def firstTruthy : List (Option String) → Option String
  | [] => none
  | a :: rest => if truthy a then a else firstTruthy rest

/-- `ensure_puuid(client, participant)`: `.error` models the
`raise RuntimeError(...)` for a participant with no usable identifier. -/
def ensure_puuid (lookup : String → Summoner) (p : Participant) :
    Except String (String × String) :=
  if truthy p.puuid then
    .ok (p.puuid.getD "", baseDisplayName p)
  else
    match firstTruthy [p.summonerId, p.encryptedSummonerId, p.id] with
    | none => .error "Participant missing both puuid and encryptedSummonerId."
    | some enc =>
      .ok ((lookup enc).puuid,
        if baseDisplayName p = "Unknown" then ((lookup enc).name).getD "Unknown"
        else baseDisplayName p)

/-- Modelled from the spec: "the first present field among `summonerId`,
`encryptedSummonerId`, `id` (in that priority order)" — presence alone,
ignoring emptiness. -/
def firstPresentField (p : Participant) : Option String :=
  match p.summonerId with
  | some s => some s
  | none =>
    match p.encryptedSummonerId with
    | some s => some s
    | none => p.id

/-- C8 counterexample: for a participant whose `summonerId` is present but
empty and whose `encryptedSummonerId` is `"X"`, the first *present* field is
the empty `summonerId`, yet the code keys the secondary lookup by `"X"` —
the first present-and-nonempty field — as the resolved puuid shows. -/
theorem c8_counterexample :
    firstPresentField ⟨none, none, none, some "", some "X", none⟩ = some "" ∧
    ensure_puuid (fun k => ⟨String.append "puuid-of-" k, none⟩)
        ⟨none, none, none, some "", some "X", none⟩
      = .ok ("puuid-of-X", "Unknown") := by
  exact ⟨rfl, rfl⟩

lemma truthy_ne_none {a : Option String} (h : truthy a = true) : a ≠ none := by
  cases a with
  | none => simp [truthy] at h
  | some s => simp

lemma firstTruthy_none_iff (a b c : Option String) :
    firstTruthy [a, b, c] = none ↔
      truthy a = false ∧ truthy b = false ∧ truthy c = false := by
  constructor
  · intro h
    by_cases h1 : truthy a = true
    · exact absurd (by simpa [firstTruthy, h1] using h) (truthy_ne_none h1)
    · by_cases h2 : truthy b = true
      · exact absurd (by simpa [firstTruthy, h1, h2] using h) (truthy_ne_none h2)
      · by_cases h3 : truthy c = true
        · exact absurd (by simpa [firstTruthy, h1, h2, h3] using h) (truthy_ne_none h3)
        · exact ⟨by simpa using h1, by simpa using h2, by simpa using h3⟩
  · rintro ⟨h1, h2, h3⟩
    simp [firstTruthy, h1, h2, h3]

/-- C8 amended: `ensure_puuid` returns the record's own puuid with the
record-derived display name when the puuid field is truthy; otherwise it
keys the secondary lookup by the first *truthy* (present and non-empty)
field among `summonerId`, `encryptedSummonerId`, `id` in that order; and it
raises its descriptive error iff the puuid and all three legacy fields are
absent or empty. -/
theorem c8_resolution_amended (lookup : String → Summoner) (p : Participant) :
    (truthy p.puuid = true →
      ensure_puuid lookup p = .ok (p.puuid.getD "", baseDisplayName p)) ∧
    (truthy p.puuid = false → ∀ enc,
      firstTruthy [p.summonerId, p.encryptedSummonerId, p.id] = some enc →
      ensure_puuid lookup p = .ok ((lookup enc).puuid,
        if baseDisplayName p = "Unknown" then ((lookup enc).name).getD "Unknown"
        else baseDisplayName p)) ∧
    ((∃ e, ensure_puuid lookup p = .error e) ↔
      (truthy p.puuid = false ∧ truthy p.summonerId = false ∧
        truthy p.encryptedSummonerId = false ∧ truthy p.id = false)) := by
  refine ⟨?_, ?_, ?_⟩
  · intro h
    simp [ensure_puuid, h]
  · intro h enc henc
    simp [ensure_puuid, h, henc]
  · constructor
    · rintro ⟨e, he⟩
      by_cases hpu : truthy p.puuid
      · simp [ensure_puuid, hpu] at he
      · cases henc : firstTruthy [p.summonerId, p.encryptedSummonerId, p.id] with
        | some enc => simp [ensure_puuid, hpu, henc] at he
        | none =>
          have hall := (firstTruthy_none_iff _ _ _).mp henc
          exact ⟨by simpa using hpu, hall.1, hall.2.1, hall.2.2⟩
    · rintro ⟨h0, h1, h2, h3⟩
      refine ⟨"Participant missing both puuid and encryptedSummonerId.", ?_⟩
      have henc : firstTruthy [p.summonerId, p.encryptedSummonerId, p.id] = none := by
        simp [firstTruthy, h1, h2, h3]
      simp [ensure_puuid, h0, henc]

theorem c8_resolution_amended_witness :
    (ensure_puuid (fun _ => ⟨"pu", none⟩) ⟨some "P", some "R", none, none, none, none⟩
      = .ok ("P", "R")) ∧
    (ensure_puuid (fun k => ⟨String.append "puuid-of-" k, some "Name"⟩)
        ⟨none, none, none, some "", some "X", none⟩
      = .ok ("puuid-of-X", "Name")) ∧
    ((∃ e, ensure_puuid (fun _ => ⟨"pu", none⟩) ⟨some "", none, none, some "", none, none⟩
        = .error e) ↔
      (truthy (some "") = false ∧ truthy (some "") = false ∧
        truthy (none : Option String) = false ∧ truthy (none : Option String) = false)) :=
  ⟨(c8_resolution_amended (fun _ => ⟨"pu", none⟩)
      ⟨some "P", some "R", none, none, none, none⟩).1 rfl,
    (c8_resolution_amended (fun k => ⟨String.append "puuid-of-" k, some "Name"⟩)
      ⟨none, none, none, some "", some "X", none⟩).2.1 rfl "X" rfl,
    (c8_resolution_amended (fun _ => ⟨"pu", none⟩)
      ⟨some "", none, none, some "", none, none⟩).2.2⟩

/-- C10: presence alone does not decide the branch: a present-but-empty
`puuid` sends `ensure_puuid` down the legacy-identifier fallback exactly as
if the field were absent, and empty-string `riotId` and `summonerName`
yield the fallback display name `"Unknown"`. -/
theorem c10_falsy_fields (lookup : String → Summoner) (p : Participant) :
    (p.puuid = some "" →
      ensure_puuid lookup p = ensure_puuid lookup { p with puuid := none }) ∧
    (p.riotId = some "" → p.summonerName = some "" → baseDisplayName p = "Unknown") := by
  constructor
  · intro h
    simp [ensure_puuid, truthy, h, baseDisplayName, firstTruthy]
  · intro h1 h2
    simp [baseDisplayName, orStr, h1, h2]

theorem c10_falsy_fields_witness :
    (ensure_puuid (fun _ => ⟨"pu", none⟩) ⟨some "", some "", some "", some "S", none, none⟩
      = ensure_puuid (fun _ => ⟨"pu", none⟩)
          { (⟨some "", some "", some "", some "S", none, none⟩ : Participant) with
            puuid := none }) ∧
    baseDisplayName ⟨some "", some "", some "", some "S", none, none⟩ = "Unknown" :=
  ⟨(c10_falsy_fields (fun _ => ⟨"pu", none⟩)
      ⟨some "", some "", some "", some "S", none, none⟩).1 rfl,
    (c10_falsy_fields (fun _ => ⟨"pu", none⟩)
      ⟨some "", some "", some "", some "S", none, none⟩).2 rfl rfl⟩

/-! ## Report renderer (`format_pct`, `print_leaderboard`, lines 260-283) -/

/-- `format_pct(n, d)`: the explicit `"—"` marker when `d <= 0`, otherwise a
numeric percentage with no decimals.  (Python renders `f"{(n/d)*100:.0f}%"`
on an IEEE float; the exact rounding of the numeral is not claim-relevant —
what matters is that the `d <= 0` branch yields the marker and the other
branch a numeral ending in `%`.) -/
def format_pct (n d : ℕ) : String :=
  if d ≤ 0 then "—"
  else toString (round ((n : ℚ) / (d : ℚ) * 100)) ++ "%"

/-- The sort key: `(r[1], r[1]/r[2] if r[2] else 0.0)`. -/
def rowKey (r : String × ℕ × ℕ) : ℕ × ℚ :=
  (r.2.1, if r.2.2 ≠ 0 then (r.2.1 : ℚ) / (r.2.2 : ℚ) else 0)

/-- Lexicographic `≤` on sort keys. -/
def keyLe (k₁ k₂ : ℕ × ℚ) : Bool :=
  decide (k₁.1 < k₂.1) || (decide (k₁.1 = k₂.1) && decide (k₁.2 ≤ k₂.2))

/-- `sorted(rows, key=..., reverse=True)`: a stable sort placing rows with
larger keys first (merge sort is stable, as is Python's sort). -/
def sortRows (rows : List (String × ℕ × ℕ)) : List (String × ℕ × ℕ) :=
  rows.mergeSort (fun a b => keyLe (rowKey b) (rowKey a))

/-- `f"WINNER: {name}" if i == 0 else name` over the sorted rows. -/
def markTop : List (String × ℕ × ℕ) → List (String × ℕ × ℕ)
  | [] => []
  | (name, u, t) :: rest => ("WINNER: " ++ name, u, t) :: rest

/-- `print_leaderboard` reduced to its data content: the rows in display
order, with the rendered percentage column for each. -/
def print_leaderboard (rows : List (String × ℕ × ℕ)) :
    List (String × ℕ × ℕ × String) :=
  (markTop (sortRows rows)).map (fun r => (r.1, r.2.1, r.2.2, format_pct r.2.1 r.2.2))

lemma keyLe_iff (k₁ k₂ : ℕ × ℚ) :
    keyLe k₁ k₂ = true ↔ (k₁.1 < k₂.1 ∨ (k₁.1 = k₂.1 ∧ k₁.2 ≤ k₂.2)) := by
  simp [keyLe, Bool.or_eq_true, Bool.and_eq_true, decide_eq_true_eq]

lemma keyLe_trans {a b c : ℕ × ℚ} (h₁ : keyLe a b = true) (h₂ : keyLe b c = true) :
    keyLe a c = true := by
  rw [keyLe_iff] at h₁ h₂ ⊢
  rcases h₁ with h | ⟨he, hr⟩ <;> rcases h₂ with h' | ⟨he', hr'⟩
  · exact Or.inl (h.trans h')
  · exact Or.inl (he' ▸ h)
  · exact Or.inl (he ▸ h')
  · exact Or.inr ⟨he.trans he', hr.trans hr'⟩

lemma keyLe_total (a b : ℕ × ℚ) : (keyLe a b || keyLe b a) = true := by
  rw [Bool.or_eq_true, keyLe_iff, keyLe_iff]
  rcases lt_trichotomy a.1 b.1 with h | h | h
  · exact Or.inl (Or.inl h)
  · rcases le_total a.2 b.2 with hr | hr
    · exact Or.inl (Or.inr ⟨h, hr⟩)
    · exact Or.inr (Or.inr ⟨h.symm, hr⟩)
  · exact Or.inr (Or.inl h)

/-- C9: the display rows are a permutation of the input, ordered by
descending exhaust count and then descending ratio (a zero-games row's
ratio key is `0`); exactly the first display row's name carries the
`"WINNER: "` marker; and a `(0, 0)` row appears with its percentage column
rendered as the `"—"` marker. -/
theorem c9_leaderboard (rows : List (String × ℕ × ℕ)) :
    (sortRows rows).Perm rows ∧
    (sortRows rows).Pairwise (fun a b => keyLe (rowKey b) (rowKey a) = true) ∧
    (∀ r : String × ℕ × ℕ, r.2.2 = 0 → rowKey r = (r.2.1, 0)) ∧
    (∀ name u t rest, sortRows rows = (name, u, t) :: rest →
      print_leaderboard rows = ("WINNER: " ++ name, u, t, format_pct u t) ::
        rest.map (fun r => (r.1, r.2.1, r.2.2, format_pct r.2.1 r.2.2))) ∧
    format_pct 0 0 = "—" ∧
    (∀ name, (name, 0, 0) ∈ rows →
      ((name, 0, 0, "—") ∈ print_leaderboard rows ∨
        ("WINNER: " ++ name, 0, 0, "—") ∈ print_leaderboard rows)) := by
  refine ⟨List.mergeSort_perm rows _, ?_, ?_, ?_, rfl, ?_⟩
  · exact @List.sorted_mergeSort _ (fun a b => keyLe (rowKey b) (rowKey a))
      (fun a b c hab hbc => keyLe_trans hbc hab)
      (fun a b => keyLe_total (rowKey b) (rowKey a)) rows
  · intro r h
    simp [rowKey, h]
  · intro name u t rest h
    simp [print_leaderboard, h, markTop]
  · intro name hm
    have hmem : (name, 0, 0) ∈ sortRows rows := ((List.mergeSort_perm rows _).mem_iff).mpr hm
    cases hs : sortRows rows with
    | nil => rw [hs] at hmem; exact absurd hmem (by simp)
    | cons hd tl =>
      rw [hs] at hmem
      rcases List.mem_cons.mp hmem with heq | htl
      · right
        obtain ⟨hn, hu, ht⟩ : hd.1 = name ∧ hd.2.1 = 0 ∧ hd.2.2 = 0 := by
          rw [← heq]; exact ⟨rfl, rfl, rfl⟩
        have : print_leaderboard rows = ("WINNER: " ++ hd.1, hd.2.1, hd.2.2,
            format_pct hd.2.1 hd.2.2) ::
            tl.map (fun r => (r.1, r.2.1, r.2.2, format_pct r.2.1 r.2.2)) := by
          simp [print_leaderboard, hs, markTop]
        rw [this, hn, hu, ht]
        exact List.mem_cons_self _ _
      · left
        have : print_leaderboard rows = ("WINNER: " ++ hd.1, hd.2.1, hd.2.2,
            format_pct hd.2.1 hd.2.2) ::
            tl.map (fun r => (r.1, r.2.1, r.2.2, format_pct r.2.1 r.2.2)) := by
          simp [print_leaderboard, hs, markTop]
        rw [this]
        refine List.mem_cons_of_mem _ ?_
        have := List.mem_map_of_mem
          (fun r : String × ℕ × ℕ => (r.1, r.2.1, r.2.2, format_pct r.2.1 r.2.2)) htl
        simpa using this

theorem c9_leaderboard_witness :
    rowKey ("A", 4, 0) = (4, 0) ∧
    (print_leaderboard [("A", 1, 2), ("B", 3, 4), ("C", 0, 0)] =
      ("WINNER: B", 3, 4, format_pct 3 4) ::
        [("A", 1, 2), ("C", 0, 0)].map
          (fun r => (r.1, r.2.1, r.2.2, format_pct r.2.1 r.2.2))) ∧
    (("C", 0, 0, "—") ∈ print_leaderboard [("A", 1, 2), ("B", 3, 4), ("C", 0, 0)] ∨
      ("WINNER: " ++ "C", 0, 0, "—") ∈ print_leaderboard [("A", 1, 2), ("B", 3, 4), ("C", 0, 0)]) :=
  ⟨(c9_leaderboard []).2.2.1 ("A", 4, 0) rfl,
    (c9_leaderboard [("A", 1, 2), ("B", 3, 4), ("C", 0, 0)]).2.2.2.1 "B" 3 4
      [("A", 1, 2), ("C", 0, 0)] (by norm_num [sortRows, List.mergeSort, List.merge, keyLe, rowKey]),
    (c9_leaderboard [("A", 1, 2), ("B", 3, 4), ("C", 0, 0)]).2.2.2.2.2 "C" (by simp)⟩

/-! ## Per-player error isolation (`run`, lines 335-357) -/

inductive PlayerStep where
  | row (name : String) (used total : ℕ) : PlayerStep
  | skipResolve (err : String) : PlayerStep
  | skipCount (name err : String) : PlayerStep
deriving Repr, DecidableEq

/-- One iteration of `run`'s participant loop: `ensure_puuid` and
`count_exhaust_for_player` each run inside their own try/except.  `resolve`
abstracts `ensure_puuid(client, p)` and `count` abstracts
`count_exhaust_for_player(client, puuid, ...)`, each returning `.error`
with the exception text when it raises. -/
def processPlayer (resolve : Participant → Except String (String × String))
    (count : String → Except String (ℕ × ℕ)) (p : Participant) : PlayerStep :=
  match resolve p with
  | .error e => .skipResolve e
  | .ok (puuid, name) =>
    match count puuid with
    | .error e => .skipCount name e
    | .ok (u, t) => .row name u t

def stepRow : PlayerStep → Option (String × ℕ × ℕ)
  | .row n u t => some (n, u, t)
  | _ => none

/-- The operator-facing stderr line a failed step emits. -/
def stepErr : PlayerStep → Option String
  | .skipResolve e => some ("Skipping a participant (could not resolve PUUID): " ++ e)
  | .skipCount name e => some ("Error while counting for " ++ name ++ ": " ++ e)
  | _ => none

/-- `run`'s participant loop: accumulates rows of successful players and
the stderr lines of failed ones, in order. -/
def runLoop (resolve : Participant → Except String (String × String))
    (count : String → Except String (ℕ × ℕ)) :
    List Participant → List (String × ℕ × ℕ) × List String
  | [] => ([], [])
  | p :: ps =>
    match processPlayer resolve count p with
    | .row name u t =>
      ((name, u, t) :: (runLoop resolve count ps).1, (runLoop resolve count ps).2)
    | .skipResolve e =>
      ((runLoop resolve count ps).1,
        ("Skipping a participant (could not resolve PUUID): " ++ e)
          :: (runLoop resolve count ps).2)
    | .skipCount name e =>
      ((runLoop resolve count ps).1,
        ("Error while counting for " ++ name ++ ": " ++ e)
          :: (runLoop resolve count ps).2)

inductive RunReport where
  | noData : RunReport
  | board (rows : List (String × ℕ × ℕ × String)) : RunReport
deriving Repr, DecidableEq

/-- The tail of `run`: `"No data to display."` when no players succeeded,
else the leaderboard printed from the successful rows. -/
def runReport (rows : List (String × ℕ × ℕ)) : RunReport :=
  if rows = [] then .noData else .board (print_leaderboard rows)

lemma runLoop_spec (resolve : Participant → Except String (String × String))
    (count : String → Except String (ℕ × ℕ)) :
    ∀ ps : List Participant,
      (runLoop resolve count ps).1
        = ps.filterMap (fun p => stepRow (processPlayer resolve count p)) ∧
      (runLoop resolve count ps).2
        = ps.filterMap (fun p => stepErr (processPlayer resolve count p)) ∧
      (runLoop resolve count ps).1.length + (runLoop resolve count ps).2.length
        = ps.length := by
  intro ps
  induction ps with
  | nil => exact ⟨rfl, rfl, rfl⟩
  | cons p ps ih =>
    obtain ⟨ih1, ih2, ih3⟩ := ih
    cases hp : processPlayer resolve count p with
    | row name u t =>
      refine ⟨?_, ?_, ?_⟩
      · simp [runLoop, hp, List.filterMap_cons, stepRow, ih1]
      · simp [runLoop, hp, List.filterMap_cons, stepErr, ih2]
      · simp only [runLoop, hp, List.length_cons]
        omega
    | skipResolve e =>
      refine ⟨?_, ?_, ?_⟩
      · simp [runLoop, hp, List.filterMap_cons, stepRow, ih1]
      · simp [runLoop, hp, List.filterMap_cons, stepErr, ih2]
      · simp only [runLoop, hp, List.length_cons]
        omega
    | skipCount name e =>
      refine ⟨?_, ?_, ?_⟩
      · simp [runLoop, hp, List.filterMap_cons, stepRow, ih1]
      · simp [runLoop, hp, List.filterMap_cons, stepErr, ih2]
      · simp only [runLoop, hp, List.length_cons]
        omega

/-- C7: an error raised while resolving or counting one participant becomes
exactly one stderr line, that participant contributes no row, the rest keep
being processed (rows plus error lines account for every participant), a
counting failure's line references the display name, and the final report is
`noData` iff zero players succeeded, else the leaderboard of the successes. -/
theorem c7_per_player_isolation (resolve : Participant → Except String (String × String))
    (count : String → Except String (ℕ × ℕ)) (ps : List Participant) :
    (runLoop resolve count ps).1
      = ps.filterMap (fun p => stepRow (processPlayer resolve count p)) ∧
    (runLoop resolve count ps).2
      = ps.filterMap (fun p => stepErr (processPlayer resolve count p)) ∧
    (runLoop resolve count ps).1.length + (runLoop resolve count ps).2.length
      = ps.length ∧
    (∀ p ∈ ps, ∀ name e, processPlayer resolve count p = .skipCount name e →
      ("Error while counting for " ++ name ++ ": " ++ e) ∈ (runLoop resolve count ps).2) ∧
    (runReport (runLoop resolve count ps).1 = .noData ↔ (runLoop resolve count ps).1 = []) ∧
    ((runLoop resolve count ps).1 ≠ [] →
      runReport (runLoop resolve count ps).1
        = .board (print_leaderboard (runLoop resolve count ps).1)) := by
  obtain ⟨h1, h2, h3⟩ := runLoop_spec resolve count ps
  refine ⟨h1, h2, h3, ?_, ?_, ?_⟩
  · intro p hp name e hpe
    rw [h2]
    exact List.mem_filterMap.mpr ⟨p, hp, by simp [stepErr, hpe]⟩
  · constructor
    · intro h
      by_contra hne
      simp [runReport, hne] at h
    · intro h
      simp [runReport, h]
  · intro h
    simp [runReport, h]

def resolveSample : Participant → Except String (String × String) :=
  fun p =>
    match p.riotId with
    | some n => .ok (n, n)
    | none => .error "no id"

def countSample : String → Except String (ℕ × ℕ) :=
  fun pu => if pu = "Bob" then .error "boom" else .ok (1, 2)

def psSample : List Participant :=
  [⟨none, some "Alice", none, none, none, none⟩,
    ⟨none, some "Bob", none, none, none, none⟩,
    ⟨none, some "Carol", none, none, none, none⟩]

theorem c7_per_player_isolation_witness :
    ("Error while counting for " ++ "Bob" ++ ": " ++ "boom")
      ∈ (runLoop resolveSample countSample psSample).2 ∧
    (runReport (runLoop resolveSample countSample psSample).1 = .noData ↔
      (runLoop resolveSample countSample psSample).1 = []) :=
  ⟨(c7_per_player_isolation resolveSample countSample psSample).2.2.2.1
      ⟨none, some "Bob", none, none, none, none⟩ (by simp [psSample]) "Bob" "boom" rfl,
    (c7_per_player_isolation resolveSample countSample psSample).2.2.2.2.1⟩
